import Mathlib

/-!
Verification development for `EWU_SMART_MOVE.py` (UC4 transfer script,
version 1.2.0 under `scripts/`, with the older root-level copy embedded where
its observable behaviour differs).

The script is a linear filter-then-act pipeline.  We embed:
  * `apply_parms` (placeholder expansion via Python `str.replace`),
  * `load_parms` (key=value parameter-file loader),
  * `check_match` (the match predicate: name glob, size, age, content),
  * `act_on_file` and the `__main__` orchestration (`run_main`),
  * the empty-flag normalisation block of `__main__`.

File-system state is abstracted as an existence predicate `String → Bool`
plus per-path metadata (`FileMeta`); mutations are recorded as `Event`s.
`sys.exit(n)` is modelled with `Except Nat` / an `Option Nat` exit field.
-/

/-- Python `str.isspace` characters relevant to `str.strip()` in Python 2:
space, tab, newline, vertical tab, form feed, carriage return. -/
def isSpaceB (c : Char) : Bool :=
  c = ' ' || c = '\t' || c = '\n' || c = '\x0b' || c = '\x0c' || c = '\r'

/-- Drop leading whitespace, as the left half of Python `str.strip()`. -/
def dropLead (l : List Char) : List Char := l.dropWhile isSpaceB

/-- Drop trailing whitespace, as the right half of Python `str.strip()`. -/
def dropTrail (l : List Char) : List Char := (l.reverse.dropWhile isSpaceB).reverse

/-- Python `str.strip()` on the character list. -/
def pyStripL (l : List Char) : List Char := dropTrail (dropLead l)

/-- Python `str.strip()`. -/
def pyStrip (s : String) : String := ⟨pyStripL s.data⟩

/-- Python 2 `str.lower()` under the default C locale: ASCII letters only. -/
def lowerChar (c : Char) : Char :=
  if 'A' ≤ c ∧ c ≤ 'Z' then Char.ofNat (c.toNat + 32) else c

/-- Python 2 `str.upper()` under the default C locale: ASCII letters only. -/
def upperChar (c : Char) : Char :=
  if 'a' ≤ c ∧ c ≤ 'z' then Char.ofNat (c.toNat - 32) else c

/-- `str.lower()` on a whole string. -/
def pyLower (s : String) : String := ⟨s.data.map lowerChar⟩

/-- `str.upper()` on a whole string. -/
def pyUpper (s : String) : String := ⟨s.data.map upperChar⟩

/-- `is_yes` from the script: `value.upper() == 'Y'`. -/
def is_yes (value : String) : Bool := pyUpper value = "Y"

/-- Does `pat` occur at the head of `l`?  (Python slice-equality test used by
`str.replace` when scanning.) -/
def listPrefixOf : List Char → List Char → Bool
  | [], _ => true
  | _ :: _, [] => false
  | a :: as, b :: bs => a == b && listPrefixOf as bs

/-- `pat` occurs somewhere in `l` — Python's `pat in l` substring test. -/
def containsSub (pat : List Char) : List Char → Bool
  | [] => listPrefixOf pat []
  | c :: rest => listPrefixOf pat (c :: rest) || containsSub pat rest

/-- `pat` occurs in `l` starting at index `i`. -/
def occursAt (pat l : List Char) (i : Nat) : Bool := listPrefixOf pat (l.drop i)

/-- String-level substring test (Python `needle in hay`). -/
def containsSubS (needle hay : String) : Bool := containsSub needle.data hay.data

/-- Scanner for Python 2 `str.replace(pat, rep)` with a nonempty `pat`:
leftmost-first, non-overlapping, single pass, no rescanning of the inserted
replacement.  `skip > 0` means the scanner is inside an already-replaced
match and discards `skip` more characters.  (The script only ever replaces
patterns of the shape `(name)`, which are nonempty.) -/
def replGo (pat rep : List Char) : Nat → List Char → List Char
  | _ + 1, [] => []
  | skip + 1, _ :: rest => replGo pat rep skip rest
  | 0, [] => []
  | 0, c :: rest =>
    if listPrefixOf pat (c :: rest) && !pat.isEmpty then
      rep ++ replGo pat rep (pat.length - 1) rest
    else
      c :: replGo pat rep 0 rest

/-- Python 2 `s.replace(pat, rep)` for nonempty `pat`, on character lists. -/
def replChars (pat rep s : List Char) : List Char := replGo pat rep 0 s

/-- Python 2 `s.replace(pat, rep)` for nonempty `pat`. -/
def pyReplace (s pat rep : String) : String := ⟨replChars pat.data rep.data s.data⟩

/-- The parameter table `ARG_PARMS`.  A Python dict; modelled as an
association list in insertion order (the Python 2 dict iteration order is
implementation-defined but fixed within a run; every theorem below that
depends on iteration order uses tables of at most one entry). -/
abbrev Parms := List (String × String)

/-- Dict assignment `ARG_PARMS[name] = value`: overwrite an existing key or
append a new one. -/
def insertParm : Parms → String → String → Parms
  | [], n, v => [(n, v)]
  | (k, w) :: rest, n, v =>
    if k = n then (k, v) :: rest else (k, w) :: insertParm rest n v

/-- `apply_parms` from the script:
for each table entry, `subject = subject.replace('(' + name + ')', value)`. -/
def apply_parms (parms : Parms) (subject : String) : String :=
  parms.foldl (fun subj nv => pyReplace subj ("(" ++ nv.1 ++ ")") nv.2) subject

/-- Python `line.split('=')`: split on every `'='`, keeping empty segments;
the result always has at least one segment. -/
def pySplitEq : List Char → List (List Char)
  | [] => [[]]
  | c :: rest =>
    match pySplitEq rest with
    | [] => [[]]
    | seg :: segs => if c = '=' then [] :: seg :: segs else (c :: seg) :: segs

/-- Python `'='.join(parts)`. -/
def pyJoinEq : List (List Char) → List Char
  | [] => []
  | [x] => x
  | x :: y :: rest => x ++ '=' :: pyJoinEq (y :: rest)

/-- One iteration of the `load_parms` read loop, for one line of the
parameter file: strip, split on `'='`, and keep the pair when the first
segment is nonempty (`len(parts) > 0 and len(parts[0]) > 0`); the value is
`'='.join(parts[1:]).strip()`. -/
def loadLine (line : List Char) : Option (List Char × List Char) :=
  let l := pyStripL line
  match pySplitEq l with
  | [] => none
  | p0 :: rest =>
    if p0.isEmpty then none
    else some (pyStripL p0, pyStripL (pyJoinEq rest))

/-- `load_parms` from the script, over the list of lines of the parameter
file (exception-free path: the file exists, is a file, and reads cleanly). -/
def load_parms (lines : List String) : Parms :=
  lines.foldl
    (fun t line =>
      match loadLine line.data with
      | some (n, v) => insertParm t ⟨n⟩ ⟨v⟩
      | none => t)
    []

/-- `os.path.basename` on POSIX: everything after the last `'/'`. -/
def basenameL (l : List Char) : List Char :=
  l.foldl (fun acc c => if c = '/' then [] else acc ++ [c]) []

/-- `os.path.basename` on POSIX. -/
def basename (p : String) : String := ⟨basenameL p.data⟩

/-- `os.path.join(a, b)` on POSIX (two arguments). -/
def pathJoin (a b : String) : String :=
  if b.data.head? = some '/' then b
  else if a.data = [] ∨ a.data.getLast? = some '/' then a ++ b
  else a ++ "/" ++ b

/-- Locate the closing `']'` of a glob bracket expression, per the scan in
Python 2 `fnmatch.translate`: a leading `'!'` is skipped, a `']'` directly
after that is taken literally, then the first `']'` closes the class.
`none` means the bracket is unterminated (and `'['` is taken literally). -/
def classEnd (p : List Char) : Option Nat :=
  let s0 := if p.head? = some '!' then 1 else 0
  let s1 := if p.get? s0 = some ']' then s0 + 1 else s0
  match (p.drop s1).findIdx? (· = ']') with
  | some k => some (s1 + k)
  | none => none

/-- Match one character against the items of a bracket expression body:
`a-b` ranges (empty when `a > b`; Python would raise on such a pattern)
and literal characters, parsed left to right as the regex engine does. -/
def itemsMatch : List Char → Char → Bool
  | a :: '-' :: b :: rest, c =>
    (decide (a ≤ c ∧ c ≤ b)) || itemsMatch rest c
  | a :: rest, c => (a == c) || itemsMatch rest c
  | [], _ => false

/-- Match one character against a bracket expression body `stuff`,
honouring a leading `'!'` as negation (`fnmatch.translate` turns it
into `[^...]`). -/
def classStuffMatch (stuff : List Char) (c : Char) : Bool :=
  match stuff with
  | '!' :: rest => ! itemsMatch rest c
  | _ => itemsMatch stuff c

/-- Fuel-indexed worker for glob matching, following the regex produced by
Python 2 `fnmatch.translate`: `*` ↦ `.*`, `?` ↦ `.` (with `(?s)`, so any
character including newline), bracket expressions as in `classEnd`, all
other characters literal, anchored at both ends.  The fuel only forces
structural recursion; `p.length + s.length` strictly decreases at every
recursive call, so `p.length + s.length + 1` fuel is always enough. -/
def matchGlobF : Nat → List Char → List Char → Bool
  | 0, _, _ => false
  | _ + 1, [], s => s.isEmpty
  | fuel + 1, a :: p1, s =>
    if a = '*' then
      matchGlobF fuel p1 s ||
        (match s with
         | [] => false
         | _ :: s1 => matchGlobF fuel (a :: p1) s1)
    else if a = '?' then
      match s with
      | [] => false
      | _ :: s1 => matchGlobF fuel p1 s1
    else if a = '[' then
      match classEnd p1 with
      | none =>
        (match s with
         | [] => false
         | c :: s1 => (c == '[') && matchGlobF fuel p1 s1)
      | some j =>
        (match s with
         | [] => false
         | c :: s1 => classStuffMatch (p1.take j) c && matchGlobF fuel (p1.drop (j + 1)) s1)
    else
      match s with
      | [] => false
      | c :: s1 => (a == c) && matchGlobF fuel p1 s1

/-- Glob matching of a whole name against a whole pattern. -/
def matchGlob (p s : List Char) : Bool := matchGlobF (p.length + s.length + 1) p s

/-- `fnmatch.fnmatch(name, pat)` on POSIX (`os.path.normcase` is the
identity there). -/
def fnmatchB (name pat : String) : Bool := matchGlob pat.data name.data

deriving instance DecidableEq for Except

/-- Python 2 `int()` applied to a timestamp: truncation toward zero. -/
def pyInt (q : ℚ) : ℤ := if 0 ≤ q then ⌊q⌋ else ⌈q⌉

/-- The `--action` enum: `move`, `copy` or `test` (gflags validates this). -/
inductive ActionKind where
  | move
  | copy
  | test
  deriving DecidableEq, Repr

/-- The script's flag set after `__main__` normalisation: empty values have
become `None`, the yes/no flags have been re-defaulted, and the size/age
flags have been converted with `int()`.  Yes/no flags stay strings because
the script tests them with `is_yes` (`value.upper() == 'Y'`). -/
structure Flags where
  search : Option String
  recurse : String
  filename : Option String
  match_case : String
  min_size : Option ℤ
  max_size : Option ℤ
  parm_file : Option String
  search_in_file : Option String
  search_re_in_file : Option String
  max_age : Option ℤ
  verbose : String
  output_dir : String
  output_filename : Option String
  single_file : String
  overwrite : String
  must_match : String
  action : Option ActionKind
  unix2dos : String

/-- Per-path file metadata: `os.path.getsize`, `os.stat` timestamps, and the
text lines returned by `open(path, 'rt').readlines()` — `none` when opening
or reading raises. -/
structure FileMeta where
  size : ℤ
  mtime : ℚ
  ctime : ℚ
  lines : Option (List String)

/-- The ambient world of a run: the wall clock `time()`, per-path metadata,
the semantics of `re.compile(pat).search(line)` (the `re` library is
external and left abstract), and the initial existence predicate of the
file system. -/
structure Env where
  now : ℚ
  meta : String → FileMeta
  reSearch : String → String → Bool
  fs0 : String → Bool

/-- A file-system mutation performed by the run: `os.rename`, `shutil.copy`,
or an invocation of the external `/usr/bin/unix2dos` on the destination. -/
inductive Event where
  | move (src dst : String)
  | copy (src dst : String)
  | unix2dos (dst : String)
  deriving DecidableEq, Repr

/-- The case adjustment both sides of the name comparison receive:
lower-cased exactly when `match_case` is not yes. -/
def caseAdj (fl : Flags) (s : String) : String :=
  if is_yes fl.match_case then s else pyLower s

/-- The name filter of `check_match`: expand the candidate's base name and
the configured pattern through the parameter table, lower-case both when
`match_case` is not yes, and reject when `fnmatch` fails. -/
def name_rejects (fl : Flags) (parms : Parms) (path : String) : Bool :=
  match fl.filename with
  | none => false
  | some patt =>
    let check_filename := apply_parms parms (basename path)
    let check_filename := if is_yes fl.match_case then check_filename else pyLower check_filename
    let match_filename := apply_parms parms patt
    let match_filename := if is_yes fl.match_case then match_filename else pyLower match_filename
    ! fnmatchB check_filename match_filename

/-- The minimum-size filter of `check_match`. -/
def minsize_rejects (fl : Flags) (env : Env) (path : String) : Bool :=
  match fl.min_size with
  | none => false
  | some m => (env.meta path).size < m

/-- The maximum-size filter of `check_match`. -/
def maxsize_rejects (fl : Flags) (env : Env) (path : String) : Bool :=
  match fl.max_size with
  | none => false
  | some m => (env.meta path).size > m

/-- The age filter of `check_match`:
`file_modified = max(int(st.st_mtime), int(st.st_ctime))`,
`age = (time() - file_modified) / 60`, reject when `age > max_age`.
Only the two timestamps pass through `int()`; `time()` does not. -/
def age_rejects (fl : Flags) (env : Env) (path : String) : Bool :=
  match fl.max_age with
  | none => false
  | some m =>
    let file_modified : ℤ := max (pyInt (env.meta path).mtime) (pyInt (env.meta path).ctime)
    decide ((env.now - (file_modified : ℚ)) / 60 > (m : ℚ))

/-- The regular-expression content search of `check_match`: the raw pattern
(no placeholder expansion) is compiled once and searched line by line; a
read failure is `sys.exit(2)`.  When it is not configured, `check_match`
falls through to its final `return True`. -/
def regex_phase (fl : Flags) (env : Env) (path : String) : Except Nat Bool :=
  match fl.search_re_in_file with
  | none => .ok true
  | some patt =>
    match (env.meta path).lines with
    | none => .error 2
    | some ls => .ok (ls.any (fun line => env.reSearch patt line))

/-- `check_match` from the script: the filters run in source order and the
first rejection returns `False`; a read failure during either content
search is `sys.exit(2)` (modelled as `.error 2`). -/
def check_match (fl : Flags) (parms : Parms) (env : Env) (path : String) : Except Nat Bool :=
  if name_rejects fl parms path then .ok false
  else if minsize_rejects fl env path then .ok false
  else if maxsize_rejects fl env path then .ok false
  else if age_rejects fl env path then .ok false
  else
    match fl.search_in_file with
    | none => regex_phase fl env path
    | some s =>
      let search_in_file := apply_parms parms s
      match (env.meta path).lines with
      | none => .error 2
      | some ls =>
        if ls.any (fun line => containsSubS search_in_file line) then
          regex_phase fl env path
        else .ok false

/-- `act_on_file` from the script: compute the destination, enforce the
overwrite policy (exit 2 on collision), perform the action, then invoke
`unix2dos` on the destination whenever the flag is yes — the `unix2dos`
block sits after the whole `if/elif` chain and therefore also runs for
`action == 'test'`.  The unreachable unhandled-action branch is
`sys.exit(2)` in the source (with `action = None` the preceding string
concatenation would in fact raise first; no claim depends on it). -/
def act_on_file (fl : Flags) (parms : Parms) (fs : String → Bool) (path : String) :
    Except Nat (List Event) :=
  let dst_filename :=
    match fl.output_filename with
    | some o => apply_parms parms o
    | none => basename path
  let dst_path := pathJoin fl.output_dir dst_filename
  if !is_yes fl.overwrite && fs dst_path then .error 2
  else
    let u2d := if is_yes fl.unix2dos then [Event.unix2dos dst_path] else []
    match fl.action with
    | some .test => .ok u2d
    | some .copy => .ok (Event.copy path dst_path :: u2d)
    | some .move => .ok (Event.move path dst_path :: u2d)
    | none => .error 2

/-- Effect of one recorded event on the existence predicate. -/
def fsApply (fs : String → Bool) : Event → (String → Bool)
  | .move src dst => fun p => if p = dst then true else if p = src then false else fs p
  | .copy _ dst => fun p => if p = dst then true else fs p
  | .unix2dos _ => fs

/-- The `for path in matched: act_on_file(path)` loop: events accumulate and
update the existence predicate; a fatal error stops the loop, keeping the
events already performed before the failing call. -/
def act_loop (fl : Flags) (parms : Parms) : (String → Bool) → List String → List Event × Option Nat
  | _, [] => ([], none)
  | fs, p :: rest =>
    match act_on_file fl parms fs p with
    | .error c => ([], some c)
    | .ok evs =>
      let next := act_loop fl parms (evs.foldl fsApply fs) rest
      (evs ++ next.1, next.2)

/-- The matched-set accumulation of `__main__`:
`for candidate in ...: if check_match(candidate): matched.append(candidate)`.
A fatal error inside `check_match` aborts the whole run. -/
def collect_matched (fl : Flags) (parms : Parms) (env : Env) :
    List String → Except Nat (List String)
  | [] => .ok []
  | p :: rest =>
    match check_match fl parms env p with
    | .error c => .error c
    | .ok true => (collect_matched fl parms env rest).map (p :: ·)
    | .ok false => collect_matched fl parms env rest

/-- The final count line of `__main__` in the `scripts/` version:
`"Acted on 1 file"` for exactly one match, `"Acted on %d files"` otherwise. -/
def summary_line (n : Nat) : String :=
  if n = 1 then "Acted on 1 file" else "Acted on " ++ toString n ++ " files"

/-- The final count line of the older root-level copy of the script:
always `"Acted on %d file(s)"`. -/
def summary_line_legacy (n : Nat) : String :=
  "Acted on " ++ toString n ++ " file(s)"

/-- Outcome of a run: the mutation events performed, the exit code
(`none` = normal exit 0), and the final summary line when it was printed. -/
structure RunOut where
  events : List Event
  exit : Option Nat
  summary : Option String
  deriving DecidableEq, Repr

/-- The tail of `__main__` after the search path is resolved: accumulate the
matched set over all candidates, enforce the `single_file` and `must_match`
cardinality checks, only then act on each match in order, and finally print
the count line. -/
def run_main (fl : Flags) (parms : Parms) (env : Env) (candidates : List String) : RunOut :=
  match collect_matched fl parms env candidates with
  | .error c => ⟨[], some c, none⟩
  | .ok matched =>
    if is_yes fl.single_file && decide (matched.length > 1) then ⟨[], some 2, none⟩
    else if is_yes fl.must_match && decide (matched.length < 1) then ⟨[], some 2, none⟩
    else
      let r := act_loop fl parms env.fs0 matched
      match r.2 with
      | some c => ⟨r.1, some c, none⟩
      | none => ⟨r.1, none, some (summary_line matched.length)⟩

/-- The raw flag values as they come out of gflags parsing, before the
"Convert flag values to None" block of `__main__`: `none` is Python `None`
(note `str(None).strip()` is nonempty, so `None` values pass through that
block unchanged). -/
structure RawFlags where
  search : Option String
  recurse : Option String
  filename : Option String
  match_case : Option String
  min_size : Option String
  max_size : Option String
  parm_file : Option String
  search_in_file : Option String
  search_re_in_file : Option String
  max_age : Option String
  verbose : Option String
  output_dir : Option String
  output_filename : Option String
  single_file : Option String
  overwrite : Option String
  must_match : Option String
  action : Option String
  unix2dos : Option String

/-- One line of the "Convert flag values to None" block:
`if len(str(flags.x).strip()) == 0: flags.x = None`. -/
def blankToNone (v : Option String) : Option String :=
  match v with
  | none => none
  | some s => if pyStrip s = "" then none else some s

/-- One line of the "Re-apply defaults" block: `flags.x = flags.x or 'D'`
(after the previous block the value is either `None` or a nonempty string,
both handled by Python truthiness exactly as `Option.getD`). -/
def orDefault (v : Option String) (d : String) : String := v.getD d

/-- The `__main__` blocks "Convert flag values to None" and "Re-apply
defaults (UC4 passes '--flag=' if not value provided)", over all 18 flags. -/
def normalize_flags (r : RawFlags) : RawFlags :=
  { search := blankToNone r.search
    recurse := some (orDefault (blankToNone r.recurse) "N")
    filename := blankToNone r.filename
    match_case := some (orDefault (blankToNone r.match_case) "Y")
    min_size := blankToNone r.min_size
    max_size := blankToNone r.max_size
    parm_file := blankToNone r.parm_file
    search_in_file := blankToNone r.search_in_file
    search_re_in_file := blankToNone r.search_re_in_file
    max_age := blankToNone r.max_age
    verbose := some (orDefault (blankToNone r.verbose) "N")
    output_dir := blankToNone r.output_dir
    output_filename := blankToNone r.output_filename
    single_file := some (orDefault (blankToNone r.single_file) "N")
    overwrite := some (orDefault (blankToNone r.overwrite) "N")
    must_match := some (orDefault (blankToNone r.must_match) "N")
    action := blankToNone r.action
    unix2dos := some (orDefault (blankToNone r.unix2dos) "N") }

/-- The gflags defaults of the `DEFINE_*` declarations: what the parser
yields when a flag is omitted from the command line. -/
def rawDefaults : RawFlags :=
  { search := none
    recurse := some "N"
    filename := none
    match_case := some "Y"
    min_size := none
    max_size := none
    parm_file := none
    search_in_file := none
    search_re_in_file := none
    max_age := none
    verbose := some "N"
    output_dir := none
    output_filename := none
    single_file := some "N"
    overwrite := some "N"
    must_match := some "N"
    action := none
    unix2dos := some "N" }

/-- Baseline flag record used by concrete instantiations: all filters off,
defaults for the yes/no flags, `test` action, output to `/out`. -/
def baseFlags : Flags :=
  { search := none
    recurse := "N"
    filename := none
    match_case := "Y"
    min_size := none
    max_size := none
    parm_file := none
    search_in_file := none
    search_re_in_file := none
    max_age := none
    verbose := "N"
    output_dir := "/out"
    output_filename := none
    single_file := "N"
    overwrite := "N"
    must_match := "N"
    action := some .test
    unix2dos := "N" }

/-- Baseline environment for concrete instantiations: empty readable files,
a regex engine that never matches, an empty file system. -/
def baseEnv : Env :=
  { now := 0
    meta := fun _ => ⟨0, 0, 0, some []⟩
    reSearch := fun _ _ => false
    fs0 := fun _ => false }

/-- Environment whose every file has both timestamps `t`, under clock `now`. -/
def envAt (now t : ℚ) : Env :=
  { now := now
    meta := fun _ => ⟨0, t, t, some []⟩
    reSearch := fun _ _ => false
    fs0 := fun _ => false }

/-- Claim C1: the full matched set is accumulated before any `act_on_file`
call; with `single_file` enabled and more than one match the run exits with
code 2 having performed zero mutations, and likewise `must_match` with zero
matches exits with code 2 before any action. -/
theorem C1_cardinality_checked_before_actions
    (fl : Flags) (parms : Parms) (env : Env) (candidates : List String) (m : List String)
    (hm : collect_matched fl parms env candidates = .ok m) :
    (is_yes fl.single_file = true → 1 < m.length →
      run_main fl parms env candidates = ⟨[], some 2, none⟩)
    ∧ (is_yes fl.must_match = true → m.length = 0 →
      run_main fl parms env candidates = ⟨[], some 2, none⟩) := by
  constructor
  · intro hsf hlen
    unfold run_main
    rw [hm]
    simp [hsf, hlen]
  · intro hmm hlen
    unfold run_main
    rw [hm]
    simp [hmm, hlen]

/-- Witness for C1: with `single_file=Y` and two matching candidates the run
exits 2 with no events. -/
theorem C1_cardinality_checked_before_actions_witness :
    run_main { baseFlags with single_file := "Y" } [] baseEnv ["/a", "/b"]
      = ⟨[], some 2, none⟩ :=
  (C1_cardinality_checked_before_actions { baseFlags with single_file := "Y" } [] baseEnv
    ["/a", "/b"] ["/a", "/b"] (by decide)).1 (by decide) (by decide)

/-- Claim C2 (code bug): a run with `action=test` and `unix2dos=Y` still
invokes the external `unix2dos` converter on the destination path — the
`unix2dos` block of `act_on_file` is not guarded by the action kind, so the
dry run is not mutation-free. -/
theorem C2_test_run_invokes_unix2dos :
    run_main { baseFlags with unix2dos := "Y", overwrite := "Y" } [] baseEnv ["/data/f"]
      = ⟨[Event.unix2dos "/out/f"], none, some "Acted on 1 file"⟩
    ∧ ({ baseFlags with unix2dos := "Y", overwrite := "Y" } : Flags).action
        = some ActionKind.test := by
  constructor
  · decide
  · rfl

/-- Claim C4 (code bug): `act_on_file` joins the raw, unexpanded
`output_dir` with the destination base name, although the `parm_file` flag
help documents `--output_dir=/u03/.../(pay_year)/...` as an intended use;
the claimed destination (expanded `output_dir` joined with the base name)
differs at this input. -/
theorem C4_output_dir_not_expanded :
    act_on_file
      { baseFlags with action := some .copy, overwrite := "Y", output_dir := "/u03/(pay_year)" }
      [("pay_year", "2015")] (fun _ => false) "/data/f.txt"
      = .ok [Event.copy "/data/f.txt" "/u03/(pay_year)/f.txt"]
    ∧ pathJoin (apply_parms [("pay_year", "2015")] "/u03/(pay_year)") "f.txt" = "/u03/2015/f.txt"
    ∧ ("/u03/(pay_year)/f.txt" : String) ≠ "/u03/2015/f.txt" := by
  refine ⟨by decide, by decide, by decide⟩

/-- Counterexample to claim C9 as stated: in the `scripts/` version a count
other than one is printed as `"Acted on N files"`, not `"Acted on N
file(s)"`. -/
theorem C9_plural_wording_cex :
    summary_line 2 = "Acted on 2 files" ∧ summary_line 2 ≠ "Acted on 2 file(s)" := by
  constructor
  · decide
  · decide

/-- Claim C9 (amended): exactly one match is reported with the singular
`"Acted on 1 file"`, any other count `N` as `"Acted on N files"`; the older
root-level copy of the script always prints `"Acted on N file(s)"`, even
for one match. -/
theorem C9_summary_wording (n : Nat) :
    (n = 1 → summary_line n = "Acted on 1 file")
    ∧ (n ≠ 1 → summary_line n = "Acted on " ++ toString n ++ " files")
    ∧ summary_line_legacy n = "Acted on " ++ toString n ++ " file(s)" := by
  refine ⟨fun h => by simp [summary_line, h], fun h => by simp [summary_line, h], rfl⟩

/-- Witness for C9 at counts 1 and 2. -/
theorem C9_summary_wording_witness :
    summary_line 1 = "Acted on 1 file"
    ∧ summary_line 2 = "Acted on " ++ toString 2 ++ " files" :=
  ⟨(C9_summary_wording 1).1 rfl, (C9_summary_wording 2).2.1 (by decide)⟩

/-- Claim C10: any of the 18 command-line flags supplied with a blank
(empty or whitespace-only) value is turned into `None` by the `__main__`
normalisation block, after which the yes/no flags `recurse`, `match_case`,
`verbose`, `single_file`, `overwrite`, `must_match`, `unix2dos` are
re-defaulted to `N, Y, N, N, N, N, N`; for every flag, a blank value thus
yields the same normalised value as omitting the flag (whose parsed value
is the gflags `DEFINE_*` default). -/
theorem C10_blank_flags_behave_as_omitted (s : String) (r : RawFlags)
    (hs : pyStrip s = "") :
    (normalize_flags { r with recurse := some s }).recurse = some "N"
    ∧ (normalize_flags { r with match_case := some s }).match_case = some "Y"
    ∧ (normalize_flags { r with verbose := some s }).verbose = some "N"
    ∧ (normalize_flags { r with single_file := some s }).single_file = some "N"
    ∧ (normalize_flags { r with overwrite := some s }).overwrite = some "N"
    ∧ (normalize_flags { r with must_match := some s }).must_match = some "N"
    ∧ (normalize_flags { r with unix2dos := some s }).unix2dos = some "N"
    ∧ (normalize_flags { r with recurse := some s }).recurse
        = (normalize_flags { r with recurse := rawDefaults.recurse }).recurse
    ∧ (normalize_flags { r with match_case := some s }).match_case
        = (normalize_flags { r with match_case := rawDefaults.match_case }).match_case
    ∧ (normalize_flags { r with verbose := some s }).verbose
        = (normalize_flags { r with verbose := rawDefaults.verbose }).verbose
    ∧ (normalize_flags { r with single_file := some s }).single_file
        = (normalize_flags { r with single_file := rawDefaults.single_file }).single_file
    ∧ (normalize_flags { r with overwrite := some s }).overwrite
        = (normalize_flags { r with overwrite := rawDefaults.overwrite }).overwrite
    ∧ (normalize_flags { r with must_match := some s }).must_match
        = (normalize_flags { r with must_match := rawDefaults.must_match }).must_match
    ∧ (normalize_flags { r with unix2dos := some s }).unix2dos
        = (normalize_flags { r with unix2dos := rawDefaults.unix2dos }).unix2dos
    ∧ (normalize_flags { r with search := some s }).search = none
    ∧ (normalize_flags { r with filename := some s }).filename = none
    ∧ (normalize_flags { r with min_size := some s }).min_size = none
    ∧ (normalize_flags { r with max_size := some s }).max_size = none
    ∧ (normalize_flags { r with parm_file := some s }).parm_file = none
    ∧ (normalize_flags { r with search_in_file := some s }).search_in_file = none
    ∧ (normalize_flags { r with search_re_in_file := some s }).search_re_in_file = none
    ∧ (normalize_flags { r with max_age := some s }).max_age = none
    ∧ (normalize_flags { r with output_dir := some s }).output_dir = none
    ∧ (normalize_flags { r with output_filename := some s }).output_filename = none
    ∧ (normalize_flags { r with action := some s }).action = none
    ∧ (normalize_flags { r with search := some s }).search
        = (normalize_flags { r with search := rawDefaults.search }).search
    ∧ (normalize_flags { r with filename := some s }).filename
        = (normalize_flags { r with filename := rawDefaults.filename }).filename
    ∧ (normalize_flags { r with min_size := some s }).min_size
        = (normalize_flags { r with min_size := rawDefaults.min_size }).min_size
    ∧ (normalize_flags { r with max_size := some s }).max_size
        = (normalize_flags { r with max_size := rawDefaults.max_size }).max_size
    ∧ (normalize_flags { r with parm_file := some s }).parm_file
        = (normalize_flags { r with parm_file := rawDefaults.parm_file }).parm_file
    ∧ (normalize_flags { r with search_in_file := some s }).search_in_file
        = (normalize_flags { r with search_in_file := rawDefaults.search_in_file }).search_in_file
    ∧ (normalize_flags { r with search_re_in_file := some s }).search_re_in_file
        = (normalize_flags { r with search_re_in_file := rawDefaults.search_re_in_file }).search_re_in_file
    ∧ (normalize_flags { r with max_age := some s }).max_age
        = (normalize_flags { r with max_age := rawDefaults.max_age }).max_age
    ∧ (normalize_flags { r with output_dir := some s }).output_dir
        = (normalize_flags { r with output_dir := rawDefaults.output_dir }).output_dir
    ∧ (normalize_flags { r with output_filename := some s }).output_filename
        = (normalize_flags { r with output_filename := rawDefaults.output_filename }).output_filename
    ∧ (normalize_flags { r with action := some s }).action
        = (normalize_flags { r with action := rawDefaults.action }).action := by
  simp [normalize_flags, blankToNone, orDefault, rawDefaults, hs]
  decide

/-- Witness for C10 with a whitespace-only value: an enum flag regains its
default, an optional flag becomes unset and equals its omitted form. -/
theorem C10_blank_flags_behave_as_omitted_witness :
    (normalize_flags { rawDefaults with recurse := some "  " }).recurse = some "N"
    ∧ (normalize_flags { rawDefaults with min_size := some "  " }).min_size = none
    ∧ (normalize_flags { rawDefaults with output_dir := some "  " }).output_dir
        = (normalize_flags { rawDefaults with output_dir := rawDefaults.output_dir }).output_dir := by
  obtain ⟨h1, h2, h3, h4, h5, h6, h7, h8, h9, h10, h11, h12, h13, h14, h15, h16, h17, h18,
      h19, h20, h21, h22, h23, h24, h25, h26, h27, h28, h29, h30, h31, h32, h33, h34, h35,
      h36⟩ := C10_blank_flags_behave_as_omitted "  " rawDefaults (by decide)
  exact ⟨h1, h17, h34⟩

theorem dropWhile_self (p : Char → Bool) (l : List Char) :
    (l.dropWhile p).dropWhile p = l.dropWhile p := by
  induction l with
  | nil => rfl
  | cons c t ih =>
    by_cases h : p c
    · simp [List.dropWhile_cons, h, ih]
    · simp [List.dropWhile_cons, h]

theorem dropTrail_self (l : List Char) : dropTrail (dropTrail l) = dropTrail l := by
  unfold dropTrail
  rw [List.reverse_reverse, dropWhile_self]

theorem dropTrail_isPre (m : List Char) : dropTrail m <+: m := by
  unfold dropTrail
  have hsfx := List.dropWhile_suffix (l := m.reverse) isSpaceB
  have := List.reverse_prefix.mpr hsfx
  rwa [List.reverse_reverse] at this

theorem dropLead_of_isPre (x m : List Char) (hx : x <+: m) (hm : dropLead m = m) :
    dropLead x = x := by
  cases x with
  | nil => rfl
  | cons c t =>
    obtain ⟨r, hr⟩ := hx
    have hc : isSpaceB c = false := by
      cases hp : isSpaceB c
      · rfl
      · exfalso
        rw [← hr] at hm
        unfold dropLead at hm
        rw [List.cons_append, List.dropWhile_cons, hp] at hm
        simp only [if_true] at hm
        have hle : (List.dropWhile isSpaceB (t ++ r)).length ≤ (t ++ r).length :=
          (List.dropWhile_suffix isSpaceB).length_le
        rw [hm] at hle
        simp at hle
    unfold dropLead
    simp [List.dropWhile_cons, hc]

theorem pyStripL_idem (l : List Char) : pyStripL (pyStripL l) = pyStripL l := by
  show dropTrail (dropLead (dropTrail (dropLead l))) = dropTrail (dropLead l)
  have hm : dropLead (dropLead l) = dropLead l := dropWhile_self isSpaceB l
  rw [dropLead_of_isPre _ _ (dropTrail_isPre (dropLead l)) hm, dropTrail_self]

theorem pySplitEq_ne_nil (l : List Char) : pySplitEq l ≠ [] := by
  induction l with
  | nil => simp [pySplitEq]
  | cons c rest ih =>
    simp only [pySplitEq]
    cases h : pySplitEq rest with
    | nil => simp
    | cons seg segs => by_cases hc : c = '=' <;> simp [hc]

theorem pySplitEq_no_eq (l : List Char) (h : '=' ∉ l) : pySplitEq l = [l] := by
  induction l with
  | nil => rfl
  | cons c rest ih =>
    have hc : c ≠ '=' := fun hh => h (hh ▸ List.mem_cons_self c rest)
    have hr : '=' ∉ rest := fun hh => h (List.mem_cons_of_mem c hh)
    simp [pySplitEq, ih hr, hc]

theorem pySplitEq_first (k rest : List Char) (hk : '=' ∉ k) :
    pySplitEq (k ++ '=' :: rest) = k :: pySplitEq rest := by
  induction k with
  | nil =>
    simp only [List.nil_append, pySplitEq]
    cases h : pySplitEq rest with
    | nil => exact absurd h (pySplitEq_ne_nil rest)
    | cons seg segs => simp
  | cons c k1 ih =>
    have hc : c ≠ '=' := fun hh => hk (hh ▸ List.mem_cons_self c k1)
    have hk1 : '=' ∉ k1 := fun hh => hk (List.mem_cons_of_mem c hh)
    show pySplitEq (c :: (k1 ++ '=' :: rest)) = (c :: k1) :: pySplitEq rest
    simp only [pySplitEq]
    rw [ih hk1]
    simp [hc]

theorem pyJoinEq_pySplitEq (l : List Char) : pyJoinEq (pySplitEq l) = l := by
  induction l with
  | nil => rfl
  | cons c rest ih =>
    cases h : pySplitEq rest with
    | nil => exact absurd h (pySplitEq_ne_nil rest)
    | cons seg segs =>
      rw [h] at ih
      by_cases hc : c = '='
      · subst hc
        simp only [pySplitEq, h, if_pos rfl]
        simp [pyJoinEq, ih]
      · simp only [pySplitEq, h, if_neg hc]
        cases segs with
        | nil =>
          simp only [pyJoinEq] at ih ⊢
          rw [ih]
        | cons z zs =>
          simp only [pyJoinEq, List.cons_append] at ih ⊢
          rw [ih]

/-- Counterexample to claim C3 as stated: the non-blank line `hello`
contains no `'='`, yet loading it adds the entry `hello → ""` to the
parameter table. -/
theorem C3_no_equals_line_adds_entry_cex :
    ('=' ∉ ("hello" : String).data)
    ∧ load_parms ["hello"] = [("hello", "")]
    ∧ load_parms ["hello"] ≠ [] := by
  refine ⟨by decide, by decide, by decide⟩

/-- Claim C3 (amended): only lines that are blank after stripping (or whose
stripped form begins with `'='`, making the key empty) are skipped; a
non-blank line without `'='` yields the entry `stripped-line → ""`; a line
with `'='` is split at the first `'='`, later `'='` characters belonging to
the value, and both key and value are stripped. -/
theorem C3_param_line_split :
    (∀ line : String, pyStripL line.data = [] → loadLine line.data = none)
    ∧ (∀ line : String, '=' ∉ pyStripL line.data → pyStripL line.data ≠ [] →
        loadLine line.data = some (pyStripL line.data, []))
    ∧ (∀ k rest : List Char, '=' ∉ k → k ≠ [] →
        pyStripL (k ++ '=' :: rest) = k ++ '=' :: rest →
        loadLine (k ++ '=' :: rest) = some (pyStripL k, pyStripL rest))
    ∧ (∀ (lines : List String) (line : String), loadLine line.data = none →
        load_parms (lines ++ [line]) = load_parms lines) := by
  refine ⟨?_, ?_, ?_, ?_⟩
  · intro line h
    simp [loadLine, h, pySplitEq]
  · intro line h hne
    show (match pySplitEq (pyStripL line.data) with
      | [] => none
      | p0 :: rest => if p0.isEmpty then none
          else some (pyStripL p0, pyStripL (pyJoinEq rest))) = _
    rw [pySplitEq_no_eq _ h]
    simp only [List.isEmpty_iff]
    rw [if_neg hne]
    simp [pyJoinEq, pyStripL_idem]
    decide
  · intro k rest hk hkne hstrip
    show (match pySplitEq (pyStripL (k ++ '=' :: rest)) with
      | [] => none
      | p0 :: rest => if p0.isEmpty then none
          else some (pyStripL p0, pyStripL (pyJoinEq rest))) = _
    rw [hstrip, pySplitEq_first _ _ hk]
    simp only [List.isEmpty_iff]
    rw [if_neg hkne]
    rw [pyJoinEq_pySplitEq]
  · intro lines line h
    unfold load_parms
    rw [List.foldl_append]
    simp [h]

/-- Witness for C3: the pre-stripped line `a=b=c` splits at the first `'='`
into key `a` and value `b=c`. -/
theorem C3_param_line_split_witness :
    loadLine (['a'] ++ '=' :: ['b', '=', 'c']) = some (pyStripL ['a'], pyStripL ['b', '=', 'c']) :=
  C3_param_line_split.2.2.1 ['a'] ['b', '=', 'c'] (by decide) (by decide) (by decide)

theorem replGo_skip (pat rep : List Char) (n : Nat) (s : List Char) :
    replGo pat rep n s = replGo pat rep 0 (s.drop n) := by
  induction n generalizing s with
  | zero => rfl
  | succ k ih =>
    cases s with
    | nil => rfl
    | cons c rest =>
      rw [List.drop_succ_cons]
      exact ih rest

theorem replChars_cons (pat rep : List Char) (c : Char) (rest : List Char) :
    replChars pat rep (c :: rest) =
      if listPrefixOf pat (c :: rest) && !pat.isEmpty then
        rep ++ replChars pat rep (rest.drop (pat.length - 1))
      else c :: replChars pat rep rest := by
  show replGo pat rep 0 (c :: rest) = _
  rw [replGo]
  by_cases h : listPrefixOf pat (c :: rest) && !pat.isEmpty
  · rw [if_pos h, if_pos h, replGo_skip]
    rfl
  · rw [if_neg h, if_neg h]
    rfl

theorem replChars_no_occ (pat rep s : List Char) (h : containsSub pat s = false) :
    replChars pat rep s = s := by
  induction s with
  | nil => rfl
  | cons c rest ih =>
    rw [containsSub, Bool.or_eq_false_iff] at h
    rw [replChars_cons, h.1]
    simp [ih h.2]

theorem listPrefixOf_append_self (l m : List Char) : listPrefixOf l (l ++ m) = true := by
  induction l with
  | nil => rfl
  | cons c t ih => simp [listPrefixOf, ih]

theorem replChars_first_occ (pat rep : List Char) (pre post : List Char)
    (hpat : pat ≠ [])
    (h : ∀ i, i < pre.length → occursAt pat (pre ++ pat ++ post) i = false) :
    replChars pat rep (pre ++ pat ++ post) = pre ++ rep ++ replChars pat rep post := by
  induction pre with
  | nil =>
    cases pat with
    | nil => exact absurd rfl hpat
    | cons p0 pt =>
      show replChars (p0 :: pt) rep (p0 :: (pt ++ post)) = rep ++ replChars (p0 :: pt) rep post
      rw [replChars_cons]
      have hpre : listPrefixOf (p0 :: pt) (p0 :: (pt ++ post)) = true :=
        listPrefixOf_append_self (p0 :: pt) post
      rw [hpre]
      simp only [List.isEmpty_cons, Bool.not_false, Bool.and_true, if_true]
      rw [List.length_cons, Nat.add_sub_cancel, List.drop_left]
  | cons c pre1 ih =>
    have h0 : listPrefixOf pat (c :: (pre1 ++ pat ++ post)) = false := by
      have h00 := h 0 (by simp)
      simpa [occursAt] using h00
    have h1 : ∀ i, i < pre1.length → occursAt pat (pre1 ++ pat ++ post) i = false := by
      intro i hi
      have hsucc := h (i + 1) (by simp; omega)
      simpa [occursAt, List.drop_succ_cons] using hsucc
    show replChars pat rep (c :: (pre1 ++ pat ++ post)) = c :: (pre1 ++ rep ++ replChars pat rep post)
    rw [replChars_cons, h0]
    simp only [Bool.false_and, Bool.false_eq_true, if_false]
    rw [ih h1]

/-- Counterexample to claim C5 as stated: with the single-entry table
`m)x(m → V` (a key read verbatim from a parameter file may contain
parentheses), the subject `(m)x(m)` expands to `V`, consuming the occurrence
of `(m)` although the name `m` is not in the table — an unmapped placeholder
is not always left literally unexpanded. -/
theorem C5_unmapped_placeholder_consumed_cex :
    apply_parms [("m)x(m", "V")] "(m)x(m)" = "V"
    ∧ containsSubS "(m)" "(m)x(m)" = true
    ∧ containsSubS "(m)" "V" = false
    ∧ ("m" ∉ ([("m)x(m", "V")] : Parms).map Prod.fst) := by
  refine ⟨by decide, by decide, by decide, by decide⟩

/-- Claim C5 (amended): expansion applies the table entries sequentially,
each replacing every occurrence of the literal `(name)` leftmost-first,
non-overlapping, in a single pass of the subject: a subject without the
pattern is unchanged, and the first occurrence is replaced by the value
with scanning resuming after it; with table `year → 2024`,
`report_(year).txt` becomes `report_2024.txt` and the unmapped `(month)`
stays as-is.  An unmapped placeholder survives only when no mapped key's
parenthesised pattern overlaps it. -/
theorem C5_expansion_replaces_each_occurrence :
    (∀ n v s : String, containsSub ("(" ++ n ++ ")").data s.data = false →
        apply_parms [(n, v)] s = s)
    ∧ (∀ n v s1 s2 : String,
        (∀ i, i < s1.data.length →
          occursAt ("(" ++ n ++ ")").data (s1 ++ "(" ++ n ++ ")" ++ s2).data i = false) →
        apply_parms [(n, v)] (s1 ++ "(" ++ n ++ ")" ++ s2) = s1 ++ v ++ apply_parms [(n, v)] s2)
    ∧ apply_parms [("year", "2024")] "report_(year).txt" = "report_2024.txt"
    ∧ apply_parms [("year", "2024")] "(month)" = "(month)" := by
  refine ⟨?_, ?_, by decide, by decide⟩
  · intro n v s h
    apply String.ext
    exact replChars_no_occ _ _ _ h
  · intro n v s1 s2 h
    have hdata : (s1 ++ "(" ++ n ++ ")" ++ s2).data
        = s1.data ++ ("(" ++ n ++ ")").data ++ s2.data := by
      simp [String.data_append, List.append_assoc]
    apply String.ext
    show replChars ("(" ++ n ++ ")").data v.data (s1 ++ "(" ++ n ++ ")" ++ s2).data = _
    rw [hdata] at h ⊢
    rw [replChars_first_occ _ _ _ _ (by simp [String.data_append]) h]
    simp [String.data_append, List.append_assoc]
    rfl

/-- Witness for C5: concrete instantiations of both general components. -/
theorem C5_expansion_replaces_each_occurrence_witness :
    apply_parms [("year", "2024")] "(month)" = "(month)"
    ∧ apply_parms [("year", "2024")] ("report_" ++ "(" ++ "year" ++ ")" ++ ".txt")
        = "report_" ++ "2024" ++ apply_parms [("year", "2024")] ".txt" :=
  ⟨C5_expansion_replaces_each_occurrence.1 "year" "2024" "(month)" (by decide),
   C5_expansion_replaces_each_occurrence.2.1 "year" "2024" "report_" ".txt" (by decide)⟩

theorem matchGlobF_congr (fuel1 : Nat) :
    ∀ (fuel2 : Nat) (p s : List Char),
      p.length + s.length < fuel1 → p.length + s.length < fuel2 →
      matchGlobF fuel1 p s = matchGlobF fuel2 p s := by
  induction fuel1 with
  | zero =>
    intro fuel2 p s h1 _
    exact absurd h1 (Nat.not_lt_zero _)
  | succ n ih =>
    intro fuel2 p s h1 h2
    cases fuel2 with
    | zero => exact absurd h2 (Nat.not_lt_zero _)
    | succ m =>
      cases p with
      | nil => rfl
      | cons a p1 =>
        by_cases ha : a = '*'
        · have e1 : matchGlobF n p1 s = matchGlobF m p1 s := by
            apply ih
            · simp only [List.length_cons] at h1; omega
            · simp only [List.length_cons] at h2; omega
          cases s with
          | nil => simp only [matchGlobF, if_pos ha, e1]
          | cons c s1 =>
            have e2 : matchGlobF n (a :: p1) s1 = matchGlobF m (a :: p1) s1 := by
              apply ih
              · simp only [List.length_cons] at h1 ⊢; omega
              · simp only [List.length_cons] at h2 ⊢; omega
            simp only [matchGlobF, if_pos ha, e1, e2]
        · by_cases hq : a = '?'
          · cases s with
            | nil => simp only [matchGlobF, if_neg ha, if_pos hq]
            | cons c s1 =>
              have e1 : matchGlobF n p1 s1 = matchGlobF m p1 s1 := by
                apply ih
                · simp only [List.length_cons] at h1 ⊢; omega
                · simp only [List.length_cons] at h2 ⊢; omega
              simp only [matchGlobF, if_neg ha, if_pos hq, e1]
          · by_cases hb : a = '['
            · cases hce : classEnd p1 with
              | none =>
                cases s with
                | nil => simp only [matchGlobF, if_neg ha, if_neg hq, if_pos hb, hce]
                | cons c s1 =>
                  have e1 : matchGlobF n p1 s1 = matchGlobF m p1 s1 := by
                    apply ih
                    · simp only [List.length_cons] at h1 ⊢; omega
                    · simp only [List.length_cons] at h2 ⊢; omega
                  simp only [matchGlobF, if_neg ha, if_neg hq, if_pos hb, hce, e1]
              | some j =>
                cases s with
                | nil => simp only [matchGlobF, if_neg ha, if_neg hq, if_pos hb, hce]
                | cons c s1 =>
                  have hd : (p1.drop (j + 1)).length ≤ p1.length := by
                    rw [List.length_drop]; omega
                  have e1 : matchGlobF n (p1.drop (j + 1)) s1
                      = matchGlobF m (p1.drop (j + 1)) s1 := by
                    apply ih
                    · simp only [List.length_cons] at h1 ⊢; omega
                    · simp only [List.length_cons] at h2 ⊢; omega
                  simp only [matchGlobF, if_neg ha, if_neg hq, if_pos hb, hce, e1]
            · cases s with
              | nil => simp only [matchGlobF, if_neg ha, if_neg hq, if_neg hb]
              | cons c s1 =>
                have e1 : matchGlobF n p1 s1 = matchGlobF m p1 s1 := by
                  apply ih
                  · simp only [List.length_cons] at h1 ⊢; omega
                  · simp only [List.length_cons] at h2 ⊢; omega
                simp only [matchGlobF, if_neg ha, if_neg hq, if_neg hb, e1]

theorem matchGlobF_to (fuel : Nat) (p s : List Char) (h : p.length + s.length < fuel) :
    matchGlobF fuel p s = matchGlob p s :=
  matchGlobF_congr fuel (p.length + s.length + 1) p s h (by omega)

theorem matchGlob_nil_pat (s : List Char) : matchGlob [] s = s.isEmpty := rfl

theorem matchGlob_star (p s : List Char) :
    matchGlob ('*' :: p) s =
      (matchGlob p s ||
        match s with
        | [] => false
        | _ :: s1 => matchGlob ('*' :: p) s1) := by
  cases s with
  | nil =>
    have step : matchGlob ('*' :: p) [] =
        (matchGlobF (('*' :: p).length + ([] : List Char).length) p [] || false) := rfl
    rw [step, matchGlobF_to _ _ _ (by simp only [List.length_cons, List.length_nil]; omega)]
  | cons c s1 =>
    have step : matchGlob ('*' :: p) (c :: s1) =
        (matchGlobF (('*' :: p).length + (c :: s1).length) p (c :: s1) ||
          matchGlobF (('*' :: p).length + (c :: s1).length) ('*' :: p) s1) := rfl
    rw [step, matchGlobF_to _ _ _ (by simp only [List.length_cons]; omega),
      matchGlobF_to _ _ _ (by simp only [List.length_cons]; omega)]

theorem matchGlob_quest_cons (p : List Char) (c : Char) (s : List Char) :
    matchGlob ('?' :: p) (c :: s) = matchGlob p s := by
  have step : matchGlob ('?' :: p) (c :: s) =
      matchGlobF (('?' :: p).length + (c :: s).length) p s := rfl
  rw [step, matchGlobF_to _ _ _ (by simp only [List.length_cons]; omega)]

theorem matchGlob_quest_nil (p : List Char) : matchGlob ('?' :: p) [] = false := rfl

theorem matchGlob_star_iff (p s : List Char) :
    matchGlob ('*' :: p) s = true ↔
      ∃ s1 s2, s = s1 ++ s2 ∧ matchGlob p s2 = true := by
  induction s with
  | nil =>
    rw [matchGlob_star]
    constructor
    · intro h
      simp only [Bool.or_false] at h
      exact ⟨[], [], rfl, h⟩
    · rintro ⟨s1, s2, hs, hm⟩
      have h1 : s1 = [] := by
        cases s1 with
        | nil => rfl
        | cons a t => exact absurd hs.symm (by simp)
      have h2 : s2 = [] := by
        cases s2 with
        | nil => rfl
        | cons a t => rw [h1] at hs; exact absurd hs.symm (by simp)
      subst h1; subst h2
      simp only [Bool.or_false]
      exact hm
  | cons c s1 ih =>
    rw [matchGlob_star]
    constructor
    · intro h
      rcases Bool.or_eq_true_iff.mp h with h | h
      · exact ⟨[], c :: s1, rfl, h⟩
      · obtain ⟨t1, t2, ht, hm⟩ := ih.mp h
        exact ⟨c :: t1, t2, by rw [ht]; rfl, hm⟩
    · rintro ⟨t1, t2, ht, hm⟩
      apply Bool.or_eq_true_iff.mpr
      cases t1 with
      | nil =>
        left
        simp only [List.nil_append] at ht
        rw [← ht] at hm
        exact hm
      | cons a t =>
        right
        apply ih.mpr
        simp only [List.cons_append] at ht
        obtain ⟨hca, hs⟩ := List.cons.inj ht
        exact ⟨t, t2, hs, hm⟩

theorem check_match_name_only (fl : Flags) (parms : Parms) (env : Env) (path patt : String)
    (hfn : fl.filename = some patt)
    (hmin : fl.min_size = none) (hmax : fl.max_size = none) (hage : fl.max_age = none)
    (hsin : fl.search_in_file = none) (hsre : fl.search_re_in_file = none) :
    check_match fl parms env path =
      .ok (fnmatchB (caseAdj fl (apply_parms parms (basename path)))
        (caseAdj fl (apply_parms parms patt))) := by
  have hnr : name_rejects fl parms path
      = ! fnmatchB (caseAdj fl (apply_parms parms (basename path)))
          (caseAdj fl (apply_parms parms patt)) := by
    simp only [name_rejects, hfn, caseAdj]
  simp only [check_match, hnr, minsize_rejects, hmin, maxsize_rejects, hmax,
    age_rejects, hage, hsin, regex_phase, hsre]
  cases hf : fnmatchB (caseAdj fl (apply_parms parms (basename path)))
      (caseAdj fl (apply_parms parms patt)) <;> simp [hf]

theorem check_match_age_only (fl : Flags) (parms : Parms) (env : Env) (path : String)
    (hfn : fl.filename = none) (hmin : fl.min_size = none) (hmax : fl.max_size = none)
    (hsin : fl.search_in_file = none) (hsre : fl.search_re_in_file = none) :
    check_match fl parms env path = .ok (! age_rejects fl env path) := by
  have hnr : name_rejects fl parms path = false := by simp [name_rejects, hfn]
  simp only [check_match, hnr, minsize_rejects, hmin, maxsize_rejects, hmax, hsin,
    regex_phase, hsre]
  cases hb : age_rejects fl env path <;> simp [hb]

theorem pyInt_intCast (z : ℤ) : pyInt (z : ℚ) = z := by
  unfold pyInt
  by_cases h : (0 : ℚ) ≤ (z : ℚ)
  · rw [if_pos h, Int.floor_intCast]
  · rw [if_neg h, Int.ceil_intCast]

/-- Counterexample to claim C6 as stated: the match predicate also expands
the candidate's own base name through the parameter table before comparing;
with table `a → X` the candidate `(a).txt` matches the pattern `(a).txt`
(both sides expand to `X.txt`), although the raw base name does not
glob-match the expanded pattern. -/
theorem C6_basename_also_expanded_cex :
    check_match { baseFlags with filename := some "(a).txt" } [("a", "X")] baseEnv "/d/(a).txt"
      = .ok true
    ∧ fnmatchB (basename "/d/(a).txt") (apply_parms [("a", "X")] "(a).txt") = false := by
  refine ⟨by decide, by decide⟩

/-- Claim C6 (amended): when only the name filter is configured the match
predicate returns exactly `fnmatch` applied to the placeholder-expanded
base name and the placeholder-expanded pattern, both lower-cased iff
`match_case` is not yes; `*` matches any run of characters and `?` exactly
one character; with an empty parameter table the name match is
case-insensitive iff `match_case` is false (concrete instances witness the
case-sensitive behaviour when `match_case` is yes). -/
theorem C6_name_filter_glob :
    (∀ (fl : Flags) (parms : Parms) (env : Env) (path patt : String),
      fl.filename = some patt → fl.min_size = none → fl.max_size = none → fl.max_age = none →
      fl.search_in_file = none → fl.search_re_in_file = none →
      check_match fl parms env path =
        .ok (fnmatchB (caseAdj fl (apply_parms parms (basename path)))
          (caseAdj fl (apply_parms parms patt))))
    ∧ (∀ p s : List Char, matchGlob ('*' :: p) s = true ↔
        ∃ s1 s2, s = s1 ++ s2 ∧ matchGlob p s2 = true)
    ∧ (∀ (p : List Char) (c : Char) (s : List Char),
        matchGlob ('?' :: p) (c :: s) = matchGlob p s ∧ matchGlob ('?' :: p) [] = false)
    ∧ (∀ (fl : Flags) (env : Env) (path1 path2 patt : String),
        fl.filename = some patt → fl.min_size = none → fl.max_size = none → fl.max_age = none →
        fl.search_in_file = none → fl.search_re_in_file = none →
        is_yes fl.match_case = false →
        pyLower (basename path1) = pyLower (basename path2) →
        check_match fl [] env path1 = check_match fl [] env path2)
    ∧ check_match { baseFlags with filename := some "ABC" } [] baseEnv "/d/abc" = .ok false
    ∧ check_match { baseFlags with filename := some "ABC" } [] baseEnv "/d/ABC" = .ok true
    ∧ check_match { baseFlags with filename := some "ABC", match_case := "N" } [] baseEnv "/d/abc"
        = .ok true := by
  refine ⟨?_, matchGlob_star_iff, ?_, ?_, by decide, by decide, by decide⟩
  · intro fl parms env path patt hfn hmin hmax hage hsin hsre
    exact check_match_name_only fl parms env path patt hfn hmin hmax hage hsin hsre
  · intro p c s
    exact ⟨matchGlob_quest_cons p c s, matchGlob_quest_nil p⟩
  · intro fl env path1 path2 patt hfn hmin hmax hage hsin hsre hcase hlow
    rw [check_match_name_only fl [] env path1 patt hfn hmin hmax hage hsin hsre,
      check_match_name_only fl [] env path2 patt hfn hmin hmax hage hsin hsre]
    have hb : caseAdj fl (apply_parms [] (basename path1))
        = caseAdj fl (apply_parms [] (basename path2)) := by
      simp only [apply_parms, List.foldl_nil, caseAdj, hcase, Bool.false_eq_true, if_false]
      exact hlow
    rw [hb]

/-- Witness for C6: a plain glob pattern against a matching name. -/
theorem C6_name_filter_glob_witness :
    check_match { baseFlags with filename := some "*.txt" } [] baseEnv "/d/a.txt"
      = .ok (fnmatchB
          (caseAdj { baseFlags with filename := some "*.txt" } (apply_parms [] (basename "/d/a.txt")))
          (caseAdj { baseFlags with filename := some "*.txt" } (apply_parms [] "*.txt"))) :=
  C6_name_filter_glob.1 { baseFlags with filename := some "*.txt" } [] baseEnv "/d/a.txt" "*.txt"
    rfl rfl rfl rfl rfl rfl

/-- Claim C7: with `max_age` configured (and earlier filters off) a
candidate passes iff `(now - max(int(mtime), int(ctime))) / 60 ≤ max_age`;
a file whose timestamps are exactly `max_age` minutes before an integral
`now` matches, and one a minute older does not. -/
theorem C7_age_check :
    (∀ (fl : Flags) (parms : Parms) (env : Env) (path : String) (m : ℤ),
      fl.max_age = some m → fl.filename = none → fl.min_size = none → fl.max_size = none →
      fl.search_in_file = none → fl.search_re_in_file = none →
      (check_match fl parms env path = .ok true ↔
        (env.now - ((max (pyInt (env.meta path).mtime) (pyInt (env.meta path).ctime) : ℤ) : ℚ)) / 60
          ≤ (m : ℚ)))
    ∧ (∀ k m : ℤ,
        check_match { baseFlags with max_age := some m } []
          (envAt (k : ℚ) ((k - 60 * m : ℤ) : ℚ)) "/f" = .ok true)
    ∧ (∀ k m : ℤ,
        check_match { baseFlags with max_age := some m } []
          (envAt (k : ℚ) ((k - 60 * (m + 1) : ℤ) : ℚ)) "/f" = .ok false) := by
  refine ⟨?_, ?_, ?_⟩
  · intro fl parms env path m hma hfn hmin hmax hsin hsre
    rw [check_match_age_only fl parms env path hfn hmin hmax hsin hsre]
    have hb_iff : age_rejects fl env path = false ↔
        (env.now - ((max (pyInt (env.meta path).mtime) (pyInt (env.meta path).ctime) : ℤ) : ℚ)) / 60
          ≤ (m : ℚ) := by
      simp only [age_rejects, hma]
      rw [decide_eq_false_iff_not, not_lt]
    rw [show ((Except.ok (! age_rejects fl env path) : Except Nat Bool) = .ok true)
        ↔ (age_rejects fl env path = false) from by
      cases hb : age_rejects fl env path <;> simp [hb]]
    exact hb_iff
  · intro k m
    rw [check_match_age_only _ _ _ _ rfl rfl rfl rfl rfl]
    have h : age_rejects { baseFlags with max_age := some m }
        (envAt (k : ℚ) ((k - 60 * m : ℤ) : ℚ)) "/f" = false := by
      simp only [age_rejects, envAt, max_self, pyInt_intCast]
      rw [decide_eq_false_iff_not, not_lt]
      have he : ((k : ℚ) - ((k - 60 * m : ℤ) : ℚ)) / 60 = (m : ℚ) := by
        push_cast
        ring
      rw [he]
    rw [h]
    rfl
  · intro k m
    rw [check_match_age_only _ _ _ _ rfl rfl rfl rfl rfl]
    have h : age_rejects { baseFlags with max_age := some m }
        (envAt (k : ℚ) ((k - 60 * (m + 1) : ℤ) : ℚ)) "/f" = true := by
      simp only [age_rejects, envAt, max_self, pyInt_intCast]
      rw [decide_eq_true_eq]
      have he : ((k : ℚ) - ((k - 60 * (m + 1) : ℤ) : ℚ)) / 60 = (m : ℚ) + 1 := by
        push_cast
        ring
      rw [he]
      linarith
    rw [h]
    rfl

/-- Witness for C7: with `max_age = 5`, clock 300 and timestamps 0, the
candidate passes iff its five-minute age is within the bound. -/
theorem C7_age_check_witness :
    check_match { baseFlags with max_age := some (5 : ℤ) } [] (envAt (300 : ℚ) 0) "/f" = .ok true
      ↔ ((envAt (300 : ℚ) 0).now -
          ((max (pyInt ((envAt (300 : ℚ) 0).meta "/f").mtime)
            (pyInt ((envAt (300 : ℚ) 0).meta "/f").ctime) : ℤ) : ℚ)) / 60 ≤ ((5 : ℤ) : ℚ) :=
  C7_age_check.1 { baseFlags with max_age := some (5 : ℤ) } [] (envAt (300 : ℚ) 0) "/f" 5
    rfl rfl rfl rfl rfl rfl

/-- Claim C8: when the earlier filters pass and reading the candidate fails
(`readlines` raises), a configured literal content search — or, when that
is not configured, a configured regular-expression content search — makes
the whole run exit with code 2; the failure is never a mere non-match. -/
theorem C8_read_failure_fatal (fl : Flags) (parms : Parms) (env : Env) (path s : String)
    (h1 : name_rejects fl parms path = false)
    (h2 : minsize_rejects fl env path = false)
    (h3 : maxsize_rejects fl env path = false)
    (h4 : age_rejects fl env path = false)
    (hlines : (env.meta path).lines = none) :
    (fl.search_in_file = some s → check_match fl parms env path = .error 2)
    ∧ (fl.search_in_file = none → fl.search_re_in_file = some s →
        check_match fl parms env path = .error 2) := by
  constructor
  · intro hsin
    simp [check_match, h1, h2, h3, h4, hsin, hlines]
  · intro hsin hsre
    simp [check_match, regex_phase, h1, h2, h3, h4, hsin, hsre, hlines]

/-- Witness for C8: an unreadable candidate with a literal search
configured aborts the run. -/
theorem C8_read_failure_fatal_witness :
    check_match { baseFlags with search_in_file := some "x" } []
      { baseEnv with meta := fun _ => ⟨0, 0, 0, none⟩ } "/f" = .error 2 :=
  (C8_read_failure_fatal { baseFlags with search_in_file := some "x" } []
    { baseEnv with meta := fun _ => ⟨0, 0, 0, none⟩ } "/f" "x"
    (by decide) (by decide) (by decide) (by decide) rfl).1 rfl
